import Mathlib

/-!
Verification of the Prometheus exposition-format stream parser
(`lib/protoparser/prometheus/streamparser.go`): the read/flush driver loop,
the reusable stream context, timestamp backfill, and the two-tier context
pool.  The line-splitting refill collaborator (`common.ReadLinesBlock`) and
the textual row decoder (`Rows.Unmarshal`) live outside the analysed file;
they are modelled from the spec where a claim needs their behaviour.
-/

namespace Prometheus

/-- Go errors as observed by this file: `io.EOF`, `net.Error` values (with
their `Timeout()` result), errors produced by `SetReadDeadline`, arbitrary
other errors, and `fmt.Errorf("...: %w", e)` wrapping. -/
inductive GoError where
  | eof : GoError
  | netErr (timeout : Bool) (tag : String) : GoError
  | other (tag : String) : GoError
  | wrap (msg : String) (e : GoError) : GoError
deriving Repr, DecidableEq

/-- Semantics of `errors.As(err, &ne)` for `ne : net.Error`: find the first
`net.Error` in the unwrap chain and report its `Timeout()` value. -/
def asNetError : GoError → Option Bool
  | .netErr t _ => some t
  | .wrap _ e => asNetError e
  | _ => none

/-- The predicate `errors.As(ctx.err, &ne) && ne.Timeout()` from
`streamContext.Read`. -/
def isTimeoutErr (e : GoError) : Bool :=
  (asNetError e).getD false

/-- One parsed sample (`prometheus.Row`): the core only inspects and mutates
the `Timestamp` field (milliseconds, `0` meaning unset); metric name and
value travel through untouched. -/
structure Row where
  metric : List Char
  value : List Char
  timestamp : Int
deriving Repr, DecidableEq

/-- The reusable per-stream state (`type streamContext struct`). Buffers are
byte sequences modelled as `List Char`. -/
structure streamContext where
  rows : List Row
  reqBuf : List Char
  tailBuf : List Char
  err : Option GoError
deriving Repr, DecidableEq

/-- Method `streamContext.Error`: a recorded `io.EOF` is reported as
success (`nil`), anything else verbatim. -/
def streamContext.Error (ctx : streamContext) : Option GoError :=
  if ctx.err = some .eof then none else ctx.err

/-- Method `streamContext.reset`: empty rows, truncated buffers, nil error. -/
def streamContext.reset (ctx : streamContext) : streamContext :=
  { ctx with rows := [], reqBuf := [], tailBuf := [], err := none }

/-- The zero-valued `&streamContext{}` allocated when both pool tiers miss. -/
def newStreamContext : streamContext :=
  { rows := [], reqBuf := [], tailBuf := [], err := none }

/-- The three observability counters (`readCalls`, `readErrors`,
`rowsRead`), threaded explicitly through the model. -/
structure Metrics where
  readCalls : Nat
  readErrors : Nat
  rowsRead : Nat
deriving Repr, DecidableEq

/-- Counters start at zero for the purposes of one modelled run. -/
def Metrics.zero : Metrics := { readCalls := 0, readErrors := 0, rowsRead := 0 }

/-- Capabilities of the `io.Reader` handed to `ParseStream`:
whether the type assertion `r.(net.Conn)` succeeds, what
`SetReadDeadline` returns when invoked, and what `common.GetGzipReader`
returns when the stream is declared gzipped. -/
structure Reader where
  isNetConn : Bool
  setDeadlineErr : Option GoError
  gzipHeaderErr : Option GoError
deriving Repr, DecidableEq

/-- Modelled from the spec: `common.GetGzipReader` wraps the source in a
decompressing reader (`wrap(reader) -> decompressingReader`); the wrapper is
a `*gzip.Reader`, which does not satisfy the `net.Conn` type assertion and
has no deadline support. -/
def gzipWrap (_r : Reader) : Reader :=
  { isNetConn := false, setDeadlineErr := none, gzipHeaderErr := none }

/-- Result of one call of the refill collaborator
(`common.ReadLinesBlock(r, reqBuf, tailBuf)`): the new request buffer, the
new carried tail, and the error slot. -/
structure RefillResult where
  reqBuf : List Char
  tailBuf : List Char
  err : Option GoError
deriving Repr, DecidableEq

/-- An exhausted reader: every further refill reports clean end of stream. -/
def eofRefill : RefillResult := { reqBuf := [], tailBuf := [], err := some .eof }

/-- Modelled from the spec: the reader is a black box, so the sequence of
outcomes `ReadLinesBlock` would produce on successive calls is given as a
script; once the script is exhausted the stream is at end of file. -/
def nextRefill : List RefillResult → RefillResult × List RefillResult
  | [] => (eofRefill, [])
  | o :: rest => (o, rest)

/-- Generic single-character splitter used to model the line structure of
the exposition format. -/
def splitOnChar (sep : Char) : List Char → List (List Char)
  | [] => [[]]
  | c :: rest =>
    if c = sep then [] :: splitOnChar sep rest
    else
      match splitOnChar sep rest with
      | [] => [[c]]
      | w :: ws => (c :: w) :: ws

/-- Modelled from the spec: text splits into lines at newline characters
before row decoding. -/
def splitLines (s : List Char) : List (List Char) :=
  splitOnChar '\n' s

/-- Decimal digit parser for the optional timestamp column. -/
def parseDigits : List Char → Option Nat
  | [] => none
  | l => l.foldl (fun acc c =>
      match acc with
      | none => none
      | some n => if c.isDigit then some (n * 10 + (c.toNat - 48)) else none)
      (some 0)

/-- Modelled from the spec: the row decoder turns one well-formed text line
`metric value` or `metric value timestamp` into a `Row` (timestamp `0` when
the column is absent), skipping empty lines, comment lines and ill-formed
lines. -/
def parseLine (l : List Char) : Option Row :=
  match l with
  | [] => none
  | c :: _ =>
    if c = '#' then none
    else
      match (splitOnChar ' ' l).filter (fun w => w ≠ []) with
      | [m, v] => some { metric := m, value := v, timestamp := 0 }
      | [m, v, t] =>
        match parseDigits t with
        | some n => some { metric := m, value := v, timestamp := (n : Int) }
        | none => none
      | _ => none

/-- Modelled from the spec: `Rows.Unmarshal` decodes a block of text into
the row sequence, line by line (`decode(text) -> rows`). -/
def unmarshal (s : List Char) : List Row :=
  (splitLines s).filterMap parseLine

/-- Timestamp backfill loop from `streamContext.Read`: every row whose
timestamp is the unset sentinel `0` receives the single captured wall-clock
value; other rows are untouched. -/
def backfillRows (now : Int) (rows : List Row) : List Row :=
  rows.map fun r => if r.timestamp = 0 then { r with timestamp := now } else r

/-- The full mutable state one `Read` call acts on: the stream context, the
counters, the remaining refill script, and how many read deadlines have
been set on the underlying source so far. -/
structure ReadState where
  ctx : streamContext
  metrics : Metrics
  script : List RefillResult
  deadlinesSet : Nat
deriving Repr, DecidableEq

/-- Tail of `streamContext.Read` after the refill assignment: inspect the
error slot, swallow timeouts, record EOF unwrapped, wrap other errors; on
the non-fatal paths decode the request buffer and backfill timestamps. -/
def readCore (now : Int) (s : ReadState) : ReadState × Bool :=
  let (o, rest) := nextRefill s.script
  let ctx1 := { s.ctx with reqBuf := o.reqBuf, tailBuf := o.tailBuf, err := o.err }
  let s1 := { s with ctx := ctx1, script := rest }
  let decodeStep (s2 : ReadState) : ReadState × Bool :=
    let rows0 := unmarshal s2.ctx.reqBuf
    ({ s2 with
        ctx := { s2.ctx with rows := backfillRows now rows0 },
        metrics := { s2.metrics with rowsRead := s2.metrics.rowsRead + rows0.length } },
      true)
  match o.err with
  | some e =>
    if isTimeoutErr e then
      decodeStep { s1 with ctx := { ctx1 with err := none } }
    else if e = .eof then (s1, false)
    else
      ({ s1 with
          metrics := { s1.metrics with readErrors := s1.metrics.readErrors + 1 },
          ctx := { ctx1 with err := some (.wrap "cannot read graphite plaintext protocol data" e) } },
        false)
  | none => decodeStep s1

/-- Method `streamContext.Read`: bump the read counter, stop at once on a
sticky error, set the flush deadline on connection-like sources, then
refill and decode via `readCore`. -/
def streamContext.Read (r : Reader) (now : Int) (s : ReadState) : ReadState × Bool :=
  let s1 := { s with metrics := { s.metrics with readCalls := s.metrics.readCalls + 1 } }
  match s1.ctx.err with
  | some _ => (s1, false)
  | none =>
    if r.isNetConn then
      match r.setDeadlineErr with
      | some e =>
        ({ s1 with
            metrics := { s1.metrics with readErrors := s1.metrics.readErrors + 1 },
            ctx := { s1.ctx with err := some (.wrap "cannot set read deadline" e) } },
          false)
      | none => readCore now { s1 with deadlinesSet := s1.deadlinesSet + 1 }
    else readCore now s1

/-- The flush deadline constant (`flushTimeout = 3 * time.Second`), in
nanoseconds as in Go. -/
def flushTimeout : Nat := 3 * 1000000000

/-- The `for ctx.Read(r)` loop of `ParseStream`: after each successful read
the callback receives the current row slice; a callback error aborts the
loop at once.  Returns the final state, the batches delivered to the
callback in order, and the callback error if any.  `fuel` bounds the
iteration count; `ParseStream` supplies enough for the base case to be
unreachable. -/
def driverLoop (r : Reader) (now : Int) (cb : Nat → List Row → Option GoError) :
    Nat → Nat → ReadState → ReadState × (List (List Row) × Option GoError)
  | 0, _, s => (s, ([], none))
  | Nat.succ fuel, n, s =>
    match streamContext.Read r now s with
    | (s1, true) =>
      match cb n s1.ctx.rows with
      | some e => (s1, ([s1.ctx.rows], some e))
      | none =>
        match driverLoop r now cb fuel (n + 1) s1 with
        | (s2, (bs, cbErr)) => (s2, (s1.ctx.rows :: bs, cbErr))
    | (s1, false) => (s1, ([], none))

/-- The two-tier context pool: the bounded channel
(`streamContextPoolCh`, capacity `GOMAXPROCS`) and the overflow
`sync.Pool` (modelled as a LIFO list — the model is deterministic where
`sync.Pool` is not, which no claim depends on). -/
structure Pool where
  ch : List streamContext
  syncPool : List streamContext
deriving Repr, DecidableEq

/-- Function `getStreamContext`: try the channel, then the `sync.Pool`,
then allocate a zero-valued context. -/
def getStreamContext (p : Pool) : streamContext × Pool :=
  match p.ch with
  | ctx :: rest => (ctx, { p with ch := rest })
  | [] =>
    match p.syncPool with
    | ctx :: rest => (ctx, { p with syncPool := rest })
    | [] => (newStreamContext, p)

/-- Function `putStreamContext`: reset first, then place in the channel if
it has room, otherwise in the `sync.Pool`. -/
def putStreamContext (maxProcs : Nat) (p : Pool) (ctx : streamContext) : Pool :=
  let ctx := ctx.reset
  if p.ch.length < maxProcs then { p with ch := p.ch ++ [ctx] }
  else { p with syncPool := ctx :: p.syncPool }

/-- Everything `ParseStream` produces in the model: the final read state,
the delivered batches, and the returned error. -/
structure ParseResult where
  state : ReadState
  batches : List (List Row)
  result : Option GoError
deriving Repr, DecidableEq

/-- Body of `ParseStream` after the gzip branch: acquire a context, run the
driver loop, translate the terminal error (callback errors verbatim, else
`ctx.Error()`), and release the context on every path (`defer`). -/
def parseStreamBody (maxProcs : Nat) (p : Pool) (r : Reader)
    (cb : Nat → List Row → Option GoError) (now : Int) (script : List RefillResult) :
    ParseResult × Pool :=
  let (ctx, p1) := getStreamContext p
  let s0 : ReadState := { ctx := ctx, metrics := Metrics.zero, script := script, deadlinesSet := 0 }
  match driverLoop r now cb (script.length + 1) 0 s0 with
  | (s, (batches, cbErr)) =>
    let res := match cbErr with
               | some e => some e
               | none => s.ctx.Error
    ({ state := s, batches := batches, result := res }, putStreamContext maxProcs p1 s.ctx)

/-- Function `ParseStream`: optionally wrap the reader through the gzip
collaborator (failure is fatal and wrapped), then run the driver loop over
a pooled stream context. -/
def ParseStream (maxProcs : Nat) (p : Pool) (r : Reader) (isGzipped : Bool)
    (cb : Nat → List Row → Option GoError) (now : Int) (script : List RefillResult) :
    ParseResult × Pool :=
  if isGzipped then
    match r.gzipHeaderErr with
    | some e =>
      ({ state := { ctx := newStreamContext, metrics := Metrics.zero,
                    script := script, deadlinesSet := 0 },
         batches := [],
         result := some (.wrap "cannot read gzipped lines with Prometheus exposition format" e) }, p)
    | none => parseStreamBody maxProcs p (gzipWrap r) cb now script
  else parseStreamBody maxProcs p r cb now script

/-- A context in the state the pool contract guarantees: empty rows, empty
buffers, nil error. -/
def pristine (ctx : streamContext) : Prop :=
  ctx.rows = [] ∧ ctx.reqBuf = [] ∧ ctx.tailBuf = [] ∧ ctx.err = none

instance (ctx : streamContext) : Decidable (pristine ctx) := by
  unfold pristine; infer_instance

/-- Pool invariant: every pooled context, in either tier, is pristine. -/
def poolInv (p : Pool) : Prop :=
  (∀ c ∈ p.ch, pristine c) ∧ ∀ c ∈ p.syncPool, pristine c

instance (p : Pool) : Decidable (poolInv p) := by
  unfold poolInv; infer_instance

/-- Concrete reader without connection capabilities, for witnesses. -/
def plainReader : Reader :=
  { isNetConn := false, setDeadlineErr := none, gzipHeaderErr := none }

/-- Concrete connection-like reader whose deadline setting succeeds. -/
def connReader : Reader :=
  { isNetConn := true, setDeadlineErr := none, gzipHeaderErr := none }

/-- A timeout error as `net.Conn` reads produce on an elapsed deadline. -/
def timeoutError : GoError := .netErr true "i/o timeout"

/-- Fixture: a refill outcome carrying partial data together with a
timeout error. -/
def timeoutOutcome : RefillResult :=
  { reqBuf := ['m', ' ', '1', '\n'], tailBuf := [], err := some timeoutError }

/-- Fixture: a pristine read state about to see a timeout. -/
def stateT : ReadState :=
  { ctx := newStreamContext, metrics := Metrics.zero,
    script := [timeoutOutcome], deadlinesSet := 0 }

/-- Fixture: a read state whose context already carries a terminal error. -/
def stateE : ReadState :=
  { ctx := { newStreamContext with err := some (.other "boom") },
    metrics := Metrics.zero,
    script := [{ reqBuf := ['x'], tailBuf := [], err := none }],
    deadlinesSet := 0 }

/-- Fixture: a successful refill outcome whose block holds one row without
a timestamp and one row with an explicit timestamp. -/
def successOutcome : RefillResult :=
  { reqBuf := ['m', ' ', '1', '\n', 'n', ' ', '2', ' ', '7', '\n'],
    tailBuf := [], err := none }

/-- Fixture: a pristine read state about to take a successful refill. -/
def stateS : ReadState :=
  { ctx := newStreamContext, metrics := Metrics.zero,
    script := [successOutcome], deadlinesSet := 0 }

/-- Fixture: a refill outcome failing with a non-timeout, non-EOF error. -/
def fatalOutcome : RefillResult :=
  { reqBuf := [], tailBuf := [], err := some (.other "connection reset") }

/-- Fixture: a pristine read state about to take a fatal refill error. -/
def stateF : ReadState :=
  { ctx := newStreamContext, metrics := Metrics.zero,
    script := [fatalOutcome], deadlinesSet := 0 }

/-- Fixture: a successful refill outcome whose block decodes to zero rows
(a bare newline). -/
def emptyOutcome : RefillResult :=
  { reqBuf := ['\n'], tailBuf := [], err := none }

/-- Fixture: a pristine read state about to take an empty successful
refill. -/
def stateZ : ReadState :=
  { ctx := newStreamContext, metrics := Metrics.zero,
    script := [emptyOutcome], deadlinesSet := 0 }

/-- Fixture: a thoroughly dirty context about to be released. -/
def dirtyCtx : streamContext :=
  { rows := [{ metric := ['a'], value := ['1'], timestamp := 3 }],
    reqBuf := ['x'], tailBuf := ['y'], err := some (.other "late failure") }

/-- A refill outcome the Read step survives: success, or an error the
timeout predicate accepts. -/
def nonfatal (o : RefillResult) : Prop :=
  o.err = none ∨ ∃ e, o.err = some e ∧ isTimeoutErr e = true

/-- Fixture: a callback that accepts every batch. -/
def cbNone : Nat → List Row → Option GoError := fun _ _ => none

/-- Fixture: a callback that rejects every batch with the same error. -/
def cbFail : Nat → List Row → Option GoError := fun _ _ => some (.other "cb failed")

/-- Text of a list of lines, each terminated by a newline character: the
shape of a block the refill collaborator hands over (complete lines only;
the incomplete remainder stays in the tail buffer). -/
def joinNL : List (List Char) → List Char
  | [] => []
  | l :: ls => l ++ '\n' :: joinNL ls

/-- Modelled from the spec: a refill script for a well-formed stream with
no timeouts — each call delivers a block of complete lines and succeeds. -/
def wellFormedScript (blocks : List (List (List Char))) : List RefillResult :=
  blocks.map fun L => { reqBuf := joinNL L, tailBuf := [], err := none }

theorem Read_sticky (r : Reader) (now : Int) (s : ReadState) (e : GoError)
    (h : s.ctx.err = some e) :
    streamContext.Read r now s =
      ({ s with metrics := { s.metrics with readCalls := s.metrics.readCalls + 1 } }, false) := by
  simp [streamContext.Read, h]

theorem Read_ok (r : Reader) (now : Int) (s : ReadState)
    (hctx : s.ctx.err = none) (hdl : r.isNetConn = false ∨ r.setDeadlineErr = none) :
    streamContext.Read r now s =
      readCore now
        { s with
            metrics := { s.metrics with readCalls := s.metrics.readCalls + 1 },
            deadlinesSet := s.deadlinesSet + (if r.isNetConn then 1 else 0) } := by
  rcases hdl with hr | hd
  · simp [streamContext.Read, hctx, hr]
  · cases hr : r.isNetConn <;> simp [streamContext.Read, hctx, hd, hr]

theorem readCore_success (now : Int) (s : ReadState) (o : RefillResult)
    (rest : List RefillResult) (hs : s.script = o :: rest) (he : o.err = none) :
    readCore now s =
      ({ s with
          ctx := { rows := backfillRows now (unmarshal o.reqBuf),
                   reqBuf := o.reqBuf, tailBuf := o.tailBuf, err := none },
          metrics := { s.metrics with
                        rowsRead := s.metrics.rowsRead + (unmarshal o.reqBuf).length },
          script := rest }, true) := by
  simp [readCore, nextRefill, hs, he]

theorem readCore_timeout (now : Int) (s : ReadState) (o : RefillResult)
    (rest : List RefillResult) (e : GoError)
    (hs : s.script = o :: rest) (he : o.err = some e) (ht : isTimeoutErr e = true) :
    readCore now s =
      ({ s with
          ctx := { rows := backfillRows now (unmarshal o.reqBuf),
                   reqBuf := o.reqBuf, tailBuf := o.tailBuf, err := none },
          metrics := { s.metrics with
                        rowsRead := s.metrics.rowsRead + (unmarshal o.reqBuf).length },
          script := rest }, true) := by
  simp [readCore, nextRefill, hs, he, ht]

theorem readCore_eof (now : Int) (s : ReadState) (o : RefillResult)
    (rest : List RefillResult) (hs : s.script = o :: rest) (he : o.err = some .eof) :
    readCore now s =
      ({ s with
          ctx := { s.ctx with reqBuf := o.reqBuf, tailBuf := o.tailBuf, err := some .eof },
          script := rest }, false) := by
  simp [readCore, nextRefill, hs, he, isTimeoutErr, asNetError]

theorem readCore_fatal (now : Int) (s : ReadState) (o : RefillResult)
    (rest : List RefillResult) (e : GoError)
    (hs : s.script = o :: rest) (he : o.err = some e)
    (ht : isTimeoutErr e = false) (hne : e ≠ .eof) :
    readCore now s =
      ({ s with
          ctx := { s.ctx with
                    reqBuf := o.reqBuf, tailBuf := o.tailBuf,
                    err := some (.wrap "cannot read graphite plaintext protocol data" e) },
          metrics := { s.metrics with readErrors := s.metrics.readErrors + 1 },
          script := rest }, false) := by
  simp [readCore, nextRefill, hs, he, ht, hne]

theorem readCore_exhausted (now : Int) (s : ReadState) (hs : s.script = []) :
    readCore now s =
      ({ s with
          ctx := { s.ctx with reqBuf := [], tailBuf := [], err := some .eof } }, false) := by
  simp [readCore, nextRefill, hs, eofRefill, isTimeoutErr, asNetError]

theorem Read_deadlineFail (r : Reader) (now : Int) (s : ReadState) (e : GoError)
    (hctx : s.ctx.err = none) (hr : r.isNetConn = true) (hd : r.setDeadlineErr = some e) :
    streamContext.Read r now s =
      ({ s with
          metrics := { s.metrics with
                        readCalls := s.metrics.readCalls + 1,
                        readErrors := s.metrics.readErrors + 1 },
          ctx := { s.ctx with err := some (.wrap "cannot set read deadline" e) } }, false) := by
  simp [streamContext.Read, hctx, hr, hd]

theorem Read_true_decode (r : Reader) (now : Int) (s : ReadState)
    (h : (streamContext.Read r now s).2 = true) :
    ∃ o rest, s.script = o :: rest ∧
      streamContext.Read r now s =
        ({ s with
            ctx := { rows := backfillRows now (unmarshal o.reqBuf),
                     reqBuf := o.reqBuf, tailBuf := o.tailBuf, err := none },
            metrics := { readCalls := s.metrics.readCalls + 1,
                         readErrors := s.metrics.readErrors,
                         rowsRead := s.metrics.rowsRead + (unmarshal o.reqBuf).length },
            script := rest,
            deadlinesSet := s.deadlinesSet + (if r.isNetConn then 1 else 0) }, true) := by
  cases hctx : s.ctx.err with
  | some e =>
    rw [Read_sticky r now s e hctx] at h
    exact absurd h (by simp)
  | none =>
    have hok : r.isNetConn = false ∨ r.setDeadlineErr = none := by
      by_cases hr : r.isNetConn
      · cases hd : r.setDeadlineErr with
        | some e =>
          rw [Read_deadlineFail r now s e hctx hr hd] at h
          exact absurd h (by simp)
        | none => exact Or.inr rfl
      · exact Or.inl (by simpa using hr)
    rw [Read_ok r now s hctx hok] at h ⊢
    cases hsc : s.script with
    | nil =>
      rw [readCore_exhausted now _ (by simpa using hsc)] at h
      exact absurd h (by simp)
    | cons o rest =>
      cases ho : o.err with
      | none =>
        refine ⟨o, rest, rfl, ?_⟩
        rw [readCore_success now _ o rest (by simp) ho]
      | some e =>
        cases ht : isTimeoutErr e with
        | true =>
          refine ⟨o, rest, rfl, ?_⟩
          rw [readCore_timeout now _ o rest e (by simp) ho ht]
        | false =>
          by_cases hne : e = GoError.eof
          · subst hne
            rw [readCore_eof now _ o rest (by simpa using hsc) ho] at h
            exact absurd h (by simp)
          · rw [readCore_fatal now _ o rest e (by simpa using hsc) ho ht hne] at h
            exact absurd h (by simp)

/-- C1: when the refill collaborator fails with an error satisfying the
timeout predicate (a `net.Error` whose `Timeout()` is true), the Read step
clears the error, still decodes the accumulated text with timestamp
backfill, and returns continue (`true`); the driver loop then delivers the
partial batch to the callback and keeps reading. -/
theorem C1_timeout_flush (r : Reader) (now : Int) (s : ReadState)
    (o : RefillResult) (rest : List RefillResult) (e : GoError)
    (hctx : s.ctx.err = none) (hdl : r.isNetConn = false ∨ r.setDeadlineErr = none)
    (hs : s.script = o :: rest) (he : o.err = some e) (ht : isTimeoutErr e = true) :
    (streamContext.Read r now s).2 = true ∧
    (streamContext.Read r now s).1.ctx.err = none ∧
    (streamContext.Read r now s).1.ctx.rows = backfillRows now (unmarshal o.reqBuf) ∧
    ∀ cb : Nat → List Row → Option GoError, ∀ fuel n : Nat,
      cb n (backfillRows now (unmarshal o.reqBuf)) = none →
      (driverLoop r now cb (fuel + 1) n s).2.1 =
        backfillRows now (unmarshal o.reqBuf) ::
          (driverLoop r now cb fuel (n + 1) (streamContext.Read r now s).1).2.1 := by
  have hR := (Read_ok r now s hctx hdl).trans
    (readCore_timeout now _ o rest e (by simpa using hs) he ht)
  refine ⟨by rw [hR], by rw [hR], by rw [hR], ?_⟩
  intro cb fuel n hcb
  rcases hd : driverLoop r now cb fuel (n + 1) (streamContext.Read r now s).1
    with ⟨s2, bs, cbErr⟩
  rw [hR] at hd
  simp [driverLoop, hR, hcb, hd]

theorem C1_timeout_flush_witness :
    (streamContext.Read plainReader 5 stateT).2 = true ∧
    (streamContext.Read plainReader 5 stateT).1.ctx.err = none ∧
    (streamContext.Read plainReader 5 stateT).1.ctx.rows =
      backfillRows 5 (unmarshal timeoutOutcome.reqBuf) ∧
    ∀ cb : Nat → List Row → Option GoError, ∀ fuel n : Nat,
      cb n (backfillRows 5 (unmarshal timeoutOutcome.reqBuf)) = none →
      (driverLoop plainReader 5 cb (fuel + 1) n stateT).2.1 =
        backfillRows 5 (unmarshal timeoutOutcome.reqBuf) ::
          (driverLoop plainReader 5 cb fuel (n + 1)
            (streamContext.Read plainReader 5 stateT).1).2.1 :=
  C1_timeout_flush plainReader 5 stateT timeoutOutcome [] timeoutError
    rfl (Or.inl rfl) rfl rfl rfl

/-- C6: once the context holds a terminal error, a Read step returns stop
(`false`) immediately and changes nothing (neither context, nor refill
script, nor deadlines — only the read-attempt counter); the error is
preserved verbatim, and only the explicit full `reset` clears it. -/
theorem C6_sticky_error (r : Reader) (now : Int) (s : ReadState) (e : GoError)
    (h : s.ctx.err = some e) :
    (streamContext.Read r now s).1.ctx = s.ctx ∧
    (streamContext.Read r now s).1.script = s.script ∧
    (streamContext.Read r now s).1.deadlinesSet = s.deadlinesSet ∧
    (streamContext.Read r now s).2 = false ∧
    (streamContext.Read r now s).1.ctx.err = some e ∧
    ∀ c : streamContext, c.reset.err = none := by
  have hR := Read_sticky r now s e h
  refine ⟨by rw [hR], by rw [hR], by rw [hR], by rw [hR], by rw [hR]; exact h, ?_⟩
  intro c
  simp [streamContext.reset]

theorem C6_sticky_error_witness :
    (streamContext.Read plainReader 5 stateE).1.ctx = stateE.ctx ∧
    (streamContext.Read plainReader 5 stateE).1.script = stateE.script ∧
    (streamContext.Read plainReader 5 stateE).1.deadlinesSet = stateE.deadlinesSet ∧
    (streamContext.Read plainReader 5 stateE).2 = false ∧
    (streamContext.Read plainReader 5 stateE).1.ctx.err = some (.other "boom") ∧
    ∀ c : streamContext, c.reset.err = none :=
  C6_sticky_error plainReader 5 stateE (.other "boom") rfl

/-- C5: every Read step call that reaches decoding backfills exactly the
rows whose timestamp is the unset sentinel `0` with the single captured
wall-clock value `now` (so all backfilled rows of one call share that
identical timestamp) and leaves rows with a non-zero timestamp unchanged. -/
theorem C5_timestamp_backfill (r : Reader) (now : Int) (s : ReadState)
    (h : (streamContext.Read r now s).2 = true) :
    (streamContext.Read r now s).1.ctx.rows =
      (unmarshal (streamContext.Read r now s).1.ctx.reqBuf).map
        (fun q => if q.timestamp = 0 then { q with timestamp := now } else q) ∧
    (∀ q ∈ unmarshal (streamContext.Read r now s).1.ctx.reqBuf, q.timestamp = 0 →
      { q with timestamp := now } ∈ (streamContext.Read r now s).1.ctx.rows) ∧
    (∀ q ∈ unmarshal (streamContext.Read r now s).1.ctx.reqBuf, q.timestamp ≠ 0 →
      q ∈ (streamContext.Read r now s).1.ctx.rows) := by
  obtain ⟨o, rest, hsc, hR⟩ := Read_true_decode r now s h
  rw [hR]
  refine ⟨rfl, ?_, ?_⟩
  · intro q hq h0
    have hm := List.mem_map_of_mem
      (fun q : Row => if q.timestamp = 0 then { q with timestamp := now } else q) hq
    simpa [backfillRows, h0] using hm
  · intro q hq h0
    have hm := List.mem_map_of_mem
      (fun q : Row => if q.timestamp = 0 then { q with timestamp := now } else q) hq
    simpa [backfillRows, h0] using hm

theorem C5_timestamp_backfill_witness :
    (streamContext.Read plainReader 5 stateS).1.ctx.rows =
      (unmarshal (streamContext.Read plainReader 5 stateS).1.ctx.reqBuf).map
        (fun q => if q.timestamp = 0 then { q with timestamp := 5 } else q) ∧
    (∀ q ∈ unmarshal (streamContext.Read plainReader 5 stateS).1.ctx.reqBuf,
      q.timestamp = 0 →
      { q with timestamp := 5 } ∈ (streamContext.Read plainReader 5 stateS).1.ctx.rows) ∧
    (∀ q ∈ unmarshal (streamContext.Read plainReader 5 stateS).1.ctx.reqBuf,
      q.timestamp ≠ 0 →
      q ∈ (streamContext.Read plainReader 5 stateS).1.ctx.rows) :=
  C5_timestamp_backfill plainReader 5 stateS (by decide)

/-- C8: a Read step whose refill fails with a non-timeout error returns
stop (`false`) without decoding (the row slice is untouched); a clean
`io.EOF` is recorded unwrapped, while any other error is recorded wrapped
with the descriptive message. -/
theorem C8_fatal_refill (r : Reader) (now : Int) (s : ReadState)
    (o : RefillResult) (rest : List RefillResult) (e : GoError)
    (hctx : s.ctx.err = none) (hdl : r.isNetConn = false ∨ r.setDeadlineErr = none)
    (hs : s.script = o :: rest) (he : o.err = some e) (ht : isTimeoutErr e = false) :
    (streamContext.Read r now s).2 = false ∧
    (streamContext.Read r now s).1.ctx.rows = s.ctx.rows ∧
    (e = .eof → (streamContext.Read r now s).1.ctx.err = some .eof) ∧
    (e ≠ .eof → (streamContext.Read r now s).1.ctx.err =
      some (.wrap "cannot read graphite plaintext protocol data" e)) := by
  by_cases hne : e = GoError.eof
  · subst hne
    have hR := (Read_ok r now s hctx hdl).trans
      (readCore_eof now _ o rest (by simpa using hs) he)
    refine ⟨by rw [hR], by rw [hR], fun _ => by rw [hR], fun hc => absurd rfl hc⟩
  · have hR := (Read_ok r now s hctx hdl).trans
      (readCore_fatal now _ o rest e (by simpa using hs) he ht hne)
    refine ⟨by rw [hR], by rw [hR], fun hc => absurd hc hne, fun _ => by rw [hR]⟩

theorem C8_fatal_refill_witness :
    (streamContext.Read plainReader 5 stateF).2 = false ∧
    (streamContext.Read plainReader 5 stateF).1.ctx.rows = stateF.ctx.rows ∧
    (GoError.other "connection reset" = .eof →
      (streamContext.Read plainReader 5 stateF).1.ctx.err = some .eof) ∧
    (GoError.other "connection reset" ≠ .eof →
      (streamContext.Read plainReader 5 stateF).1.ctx.err =
        some (.wrap "cannot read graphite plaintext protocol data"
          (.other "connection reset"))) :=
  C8_fatal_refill plainReader 5 stateF fatalOutcome [] (.other "connection reset")
    rfl (Or.inl rfl) rfl rfl rfl

/-- C9: every Read step on a non-fatal path (successful refill or swallowed
timeout) returns continue (`true`) even when zero rows were decoded, and
the driver loop then invokes the callback with that (possibly empty) batch
rather than skipping it: the delivered batch list starts with it. -/
theorem C9_empty_batch_delivered (r : Reader) (now : Int) (s : ReadState)
    (o : RefillResult) (rest : List RefillResult)
    (hctx : s.ctx.err = none) (hdl : r.isNetConn = false ∨ r.setDeadlineErr = none)
    (hs : s.script = o :: rest)
    (he : o.err = none ∨ ∃ e, o.err = some e ∧ isTimeoutErr e = true) :
    (streamContext.Read r now s).2 = true ∧
    (unmarshal o.reqBuf = [] → (streamContext.Read r now s).1.ctx.rows = []) ∧
    ∀ cb : Nat → List Row → Option GoError, ∀ fuel n : Nat,
      (driverLoop r now cb (fuel + 1) n s).2.1.head? =
        some ((streamContext.Read r now s).1.ctx.rows) := by
  have hR : streamContext.Read r now s =
      ({ s with
          ctx := { rows := backfillRows now (unmarshal o.reqBuf),
                   reqBuf := o.reqBuf, tailBuf := o.tailBuf, err := none },
          metrics := { readCalls := s.metrics.readCalls + 1,
                       readErrors := s.metrics.readErrors,
                       rowsRead := s.metrics.rowsRead + (unmarshal o.reqBuf).length },
          script := rest,
          deadlinesSet := s.deadlinesSet + (if r.isNetConn then 1 else 0) }, true) := by
    rcases he with he | ⟨e, he, ht⟩
    · exact (Read_ok r now s hctx hdl).trans
        (readCore_success now _ o rest (by simpa using hs) he)
    · exact (Read_ok r now s hctx hdl).trans
        (readCore_timeout now _ o rest e (by simpa using hs) he ht)
  refine ⟨by rw [hR], ?_, ?_⟩
  · intro h0
    rw [hR]
    simp [backfillRows, h0]
  · intro cb fuel n
    cases hcb : cb n (backfillRows now (unmarshal o.reqBuf)) with
    | some e => simp [driverLoop, hR, hcb]
    | none =>
      rcases hd : driverLoop r now cb fuel (n + 1) (streamContext.Read r now s).1
        with ⟨s2, bs, cbErr⟩
      rw [hR] at hd
      simp [driverLoop, hR, hcb, hd]

theorem C9_empty_batch_delivered_witness :
    (streamContext.Read plainReader 5 stateZ).2 = true ∧
    (unmarshal emptyOutcome.reqBuf = [] →
      (streamContext.Read plainReader 5 stateZ).1.ctx.rows = []) ∧
    ∀ cb : Nat → List Row → Option GoError, ∀ fuel n : Nat,
      (driverLoop plainReader 5 cb (fuel + 1) n stateZ).2.1.head? =
        some ((streamContext.Read plainReader 5 stateZ).1.ctx.rows) :=
  C9_empty_batch_delivered plainReader 5 stateZ emptyOutcome []
    rfl (Or.inl rfl) rfl (Or.inl rfl)

theorem pristine_reset (c : streamContext) : pristine c.reset := by
  simp [pristine, streamContext.reset]

theorem poolInv_put (maxProcs : Nat) (p : Pool) (c : streamContext) (h : poolInv p) :
    poolInv (putStreamContext maxProcs p c) := by
  obtain ⟨h1, h2⟩ := h
  simp only [putStreamContext]
  by_cases hl : p.ch.length < maxProcs
  · rw [if_pos hl]
    refine ⟨?_, h2⟩
    intro x hx
    rcases List.mem_append.mp hx with hx | hx
    · exact h1 x hx
    · rw [List.mem_singleton] at hx
      subst hx
      exact pristine_reset c
  · rw [if_neg hl]
    refine ⟨h1, ?_⟩
    intro x hx
    rcases List.mem_cons.mp hx with hx | hx
    · subst hx
      exact pristine_reset c
    · exact h2 x hx

theorem poolInv_get (p : Pool) (h : poolInv p) :
    pristine (getStreamContext p).1 ∧ poolInv (getStreamContext p).2 := by
  obtain ⟨h1, h2⟩ := h
  cases hch : p.ch with
  | cons ctx rest =>
    have hg : getStreamContext p = (ctx, { p with ch := rest }) := by
      simp [getStreamContext, hch]
    rw [hg]
    refine ⟨h1 ctx (by rw [hch]; exact List.mem_cons_self ctx rest), ?_, h2⟩
    intro x hx
    exact h1 x (by rw [hch]; exact List.mem_cons_of_mem _ hx)
  | nil =>
    cases hsp : p.syncPool with
    | cons ctx rest =>
      have hg : getStreamContext p = (ctx, { p with syncPool := rest }) := by
        simp [getStreamContext, hch, hsp]
      rw [hg]
      refine ⟨h2 ctx (by rw [hsp]; exact List.mem_cons_self ctx rest), h1, ?_⟩
      intro x hx
      exact h2 x (by rw [hsp]; exact List.mem_cons_of_mem _ hx)
    | nil =>
      have hg : getStreamContext p = (newStreamContext, p) := by
        simp [getStreamContext, hch, hsp]
      rw [hg]
      exact ⟨by simp [pristine, newStreamContext], h1, h2⟩

/-- C7: releasing a context in any state (`putStreamContext` resets before
pooling) preserves the invariant that every pooled context is pristine, and
acquiring (`getStreamContext`) under that invariant always yields a
pristine context — empty rows, empty buffers, nil error — whether it comes
from the channel, the overflow pool, or fresh zero-valued allocation. -/
theorem C7_pool_never_dirty (maxProcs : Nat) (p : Pool) (c : streamContext)
    (h : poolInv p) :
    poolInv (putStreamContext maxProcs p c) ∧
    pristine (getStreamContext p).1 ∧
    poolInv (getStreamContext p).2 ∧
    pristine (getStreamContext (putStreamContext maxProcs p c)).1 :=
  ⟨poolInv_put maxProcs p c h, (poolInv_get p h).1, (poolInv_get p h).2,
    (poolInv_get _ (poolInv_put maxProcs p c h)).1⟩

theorem C7_pool_never_dirty_witness :
    poolInv (putStreamContext 1 ⟨[], []⟩ dirtyCtx) ∧
    pristine (getStreamContext ⟨[], []⟩).1 ∧
    poolInv (getStreamContext ⟨[], []⟩).2 ∧
    pristine (getStreamContext (putStreamContext 1 ⟨[], []⟩ dirtyCtx)).1 :=
  C7_pool_never_dirty 1 ⟨[], []⟩ dirtyCtx (by decide)

theorem Read_nonfatal (r : Reader) (now : Int) (s : ReadState)
    (o : RefillResult) (rest : List RefillResult)
    (hctx : s.ctx.err = none) (hdl : r.isNetConn = false ∨ r.setDeadlineErr = none)
    (hs : s.script = o :: rest) (he : nonfatal o) :
    streamContext.Read r now s =
      ({ s with
          ctx := { rows := backfillRows now (unmarshal o.reqBuf),
                   reqBuf := o.reqBuf, tailBuf := o.tailBuf, err := none },
          metrics := { readCalls := s.metrics.readCalls + 1,
                       readErrors := s.metrics.readErrors,
                       rowsRead := s.metrics.rowsRead + (unmarshal o.reqBuf).length },
          script := rest,
          deadlinesSet := s.deadlinesSet + (if r.isNetConn then 1 else 0) }, true) := by
  rcases he with he | ⟨e, he, ht⟩
  · exact (Read_ok r now s hctx hdl).trans
      (readCore_success now _ o rest (by simpa using hs) he)
  · exact (Read_ok r now s hctx hdl).trans
      (readCore_timeout now _ o rest e (by simpa using hs) he ht)

theorem readCore_false_err (now : Int) (s : ReadState)
    (h : (readCore now s).2 = false) :
    (readCore now s).1.ctx.err ≠ none := by
  cases hsc : s.script with
  | nil =>
    rw [readCore_exhausted now s hsc]
    simp
  | cons o rest =>
    cases ho : o.err with
    | none =>
      rw [readCore_success now s o rest hsc ho] at h
      exact absurd h (by simp)
    | some e =>
      cases ht : isTimeoutErr e with
      | true =>
        rw [readCore_timeout now s o rest e hsc ho ht] at h
        exact absurd h (by simp)
      | false =>
        by_cases hne : e = GoError.eof
        · subst hne
          rw [readCore_eof now s o rest hsc ho]
          simp
        · rw [readCore_fatal now s o rest e hsc ho ht hne]
          simp

theorem Read_false_err (r : Reader) (now : Int) (s : ReadState)
    (h : (streamContext.Read r now s).2 = false) :
    (streamContext.Read r now s).1.ctx.err ≠ none := by
  cases hctx : s.ctx.err with
  | some e =>
    rw [Read_sticky r now s e hctx]
    simp [hctx]
  | none =>
    by_cases hr : r.isNetConn
    · cases hd : r.setDeadlineErr with
      | some e =>
        rw [Read_deadlineFail r now s e hctx hr hd]
        simp
      | none =>
        rw [Read_ok r now s hctx (Or.inr hd)] at h ⊢
        exact readCore_false_err now _ h
    · rw [Read_ok r now s hctx (Or.inl (by simpa using hr))] at h ⊢
      exact readCore_false_err now _ h

theorem Read_true_script (r : Reader) (now : Int) (s : ReadState)
    (h : (streamContext.Read r now s).2 = true) :
    (streamContext.Read r now s).1.script.length + 1 = s.script.length := by
  obtain ⟨o, rest, hsc, hR⟩ := Read_true_decode r now s h
  rw [hR, hsc]
  simp

theorem driverLoop_no_cbErr (r : Reader) (now : Int)
    (cb : Nat → List Row → Option GoError) (hcb : ∀ n rows, cb n rows = none) :
    ∀ fuel n s, (driverLoop r now cb fuel n s).2.2 = none := by
  intro fuel
  induction fuel with
  | zero => intro n s; simp [driverLoop]
  | succ fuel ih =>
    intro n s
    rcases hR : streamContext.Read r now s with ⟨s1, cont⟩
    cases cont with
    | true =>
      rcases hd : driverLoop r now cb fuel (n + 1) s1 with ⟨s2, bs, ce⟩
      have := ih (n + 1) s1
      rw [hd] at this
      simp at this
      simp [driverLoop, hR, hcb, hd, this]
    | false => simp [driverLoop, hR]

theorem driverLoop_err_isSome (r : Reader) (now : Int)
    (cb : Nat → List Row → Option GoError) (hcb : ∀ n rows, cb n rows = none) :
    ∀ fuel n s, s.script.length < fuel →
      (driverLoop r now cb fuel n s).1.ctx.err ≠ none := by
  intro fuel
  induction fuel with
  | zero => intro n s h; omega
  | succ fuel ih =>
    intro n s h
    rcases hR : streamContext.Read r now s with ⟨s1, cont⟩
    cases cont with
    | true =>
      have hlen : s1.script.length < fuel := by
        have := Read_true_script r now s (by rw [hR])
        rw [hR] at this
        simp at this
        omega
      rcases hd : driverLoop r now cb fuel (n + 1) s1 with ⟨s2, bs, ce⟩
      have := ih (n + 1) s1 hlen
      rw [hd] at this
      simp [driverLoop, hR, hcb, hd, this]
    | false =>
      have := Read_false_err r now s (by rw [hR])
      rw [hR] at this
      simp [driverLoop, hR, this]

theorem parseStreamBody_result (maxProcs : Nat) (p : Pool) (r : Reader)
    (cb : Nat → List Row → Option GoError) (now : Int) (script : List RefillResult)
    (hcb : ∀ n rows, cb n rows = none) :
    ((parseStreamBody maxProcs p r cb now script).1.result = none ↔
      (parseStreamBody maxProcs p r cb now script).1.state.ctx.err = some .eof) ∧
    (parseStreamBody maxProcs p r cb now script).1.state.ctx.err ≠ none := by
  rcases hg : getStreamContext p with ⟨ctx0, p1⟩
  set s0 : ReadState :=
    { ctx := ctx0, metrics := Metrics.zero, script := script, deadlinesSet := 0 } with hs0
  rcases hd : driverLoop r now cb (script.length + 1) 0 s0 with ⟨sf, bs, ce⟩
  have hce : ce = none := by
    have := driverLoop_no_cbErr r now cb hcb (script.length + 1) 0 s0
    rw [hd] at this
    exact this
  have herr : sf.ctx.err ≠ none := by
    have := driverLoop_err_isSome r now cb hcb (script.length + 1) 0 s0 (by simp [hs0])
    rw [hd] at this
    exact this
  have hbody : (parseStreamBody maxProcs p r cb now script).1 =
      { state := sf, batches := bs, result := sf.ctx.Error } := by
    simp only [parseStreamBody, hg, ← hs0, hd, hce]
  rw [hbody]
  refine ⟨?_, herr⟩
  simp only [streamContext.Error]
  by_cases he : sf.ctx.err = some GoError.eof
  · simp [he]
  · simp [he, herr]

/-- C3: when the callback never errors, `ParseStream` returns success
(`none`) exactly when the recorded terminal error of the stream context is
clean end-of-stream (`io.EOF`); every other terminal condition yields a
non-nil returned error. -/
theorem C3_eof_reported_as_success (maxProcs : Nat) (p : Pool) (r : Reader)
    (isGzipped : Bool) (cb : Nat → List Row → Option GoError) (now : Int)
    (script : List RefillResult)
    (hcb : ∀ n rows, cb n rows = none) :
    (ParseStream maxProcs p r isGzipped cb now script).1.result = none ↔
      (ParseStream maxProcs p r isGzipped cb now script).1.state.ctx.err = some .eof := by
  cases isGzipped with
  | false =>
    simpa only [ParseStream, Bool.false_eq_true, if_false] using
      (parseStreamBody_result maxProcs p r cb now script hcb).1
  | true =>
    cases hgz : r.gzipHeaderErr with
    | some e => simp [ParseStream, hgz, newStreamContext]
    | none =>
      simpa only [ParseStream, if_true, hgz] using
        (parseStreamBody_result maxProcs p (gzipWrap r) cb now script hcb).1

theorem C3_eof_reported_as_success_witness :
    (ParseStream 1 ⟨[], []⟩ plainReader false cbNone 5 [successOutcome]).1.result = none ↔
      (ParseStream 1 ⟨[], []⟩ plainReader false cbNone 5
        [successOutcome]).1.state.ctx.err = some .eof :=
  C3_eof_reported_as_success 1 ⟨[], []⟩ plainReader false cbNone 5 [successOutcome]
    (fun _ _ => rfl)

theorem driverLoop_callback_abort (r : Reader) (now : Int)
    (cb : Nat → List Row → Option GoError) (e : GoError) :
    ∀ (M fuel n : Nat) (s : ReadState),
      s.ctx.err = none →
      (r.isNetConn = false ∨ r.setDeadlineErr = none) →
      M + 1 ≤ s.script.length →
      (∀ o ∈ s.script.take (M + 1), nonfatal o) →
      (∀ k rows, k < M → cb (n + k) rows = none) →
      (∀ rows, cb (n + M) rows = some e) →
      M + 1 ≤ fuel →
      (driverLoop r now cb fuel n s).2.2 = some e ∧
      (driverLoop r now cb fuel n s).1.metrics.readCalls =
        s.metrics.readCalls + (M + 1) ∧
      (driverLoop r now cb fuel n s).2.1.length = M + 1 := by
  intro M
  induction M with
  | zero =>
    intro fuel n s hctx hdl hlen htake hcb1 hcb2 hfuel
    cases fuel with
    | zero => omega
    | succ f =>
      cases hsc : s.script with
      | nil => rw [hsc] at hlen; simp at hlen
      | cons o rest =>
        have ho : nonfatal o := by
          apply htake
          rw [hsc]
          simp
        have hR := Read_nonfatal r now s o rest hctx hdl hsc ho
        have hcb := hcb2 (backfillRows now (unmarshal o.reqBuf))
        rw [Nat.add_zero] at hcb
        simp [driverLoop, hR, hcb]
  | succ M ih =>
    intro fuel n s hctx hdl hlen htake hcb1 hcb2 hfuel
    cases fuel with
    | zero => omega
    | succ f =>
      cases hsc : s.script with
      | nil =>
        rw [hsc] at hlen
        simp only [List.length_nil] at hlen
        omega
      | cons o rest =>
        have ho : nonfatal o := by
          apply htake
          rw [hsc, List.take_succ_cons]
          exact List.mem_cons_self o _
        set S1 : ReadState :=
          { ctx := { rows := backfillRows now (unmarshal o.reqBuf),
                     reqBuf := o.reqBuf, tailBuf := o.tailBuf, err := none },
            metrics := { readCalls := s.metrics.readCalls + 1,
                         readErrors := s.metrics.readErrors,
                         rowsRead := s.metrics.rowsRead + (unmarshal o.reqBuf).length },
            script := rest,
            deadlinesSet := s.deadlinesSet + (if r.isNetConn then 1 else 0) }
          with hS1
        have hR : streamContext.Read r now s = (S1, true) := by
          rw [hS1]
          exact Read_nonfatal r now s o rest hctx hdl hsc ho
        have hcb0 : cb n (backfillRows now (unmarshal o.reqBuf)) = none := by
          simpa using hcb1 0 (backfillRows now (unmarshal o.reqBuf)) (Nat.succ_pos M)
        have hih := ih f (n + 1) S1
          (by rw [hS1])
          hdl
          (by rw [hS1]; rw [hsc] at hlen; simpa using hlen)
          (by
            intro x hx
            rw [hS1] at hx
            apply htake
            rw [hsc, List.take_succ_cons]
            exact List.mem_cons_of_mem o hx)
          (by
            intro k rows hk
            have h := hcb1 (k + 1) rows (by omega)
            rw [show n + (k + 1) = n + 1 + k by omega] at h
            exact h)
          (by
            intro rows
            have h := hcb2 rows
            rw [show n + (M + 1) = n + 1 + M by omega] at h
            exact h)
          (by omega)
        rcases hd : driverLoop r now cb f (n + 1) S1 with ⟨s2, bs, ce⟩
        rw [hd] at hih
        simp only [] at hih
        obtain ⟨hce, hrc, hbl⟩ := hih
        have hS1rc : S1.metrics.readCalls = s.metrics.readCalls + 1 := by rw [hS1]
        refine ⟨?_, ?_, ?_⟩
        · simp [driverLoop, hR, hcb0, hd, hce]
        · simp only [driverLoop, hR, hcb0, hd]
          omega
        · simp [driverLoop, hR, hcb0, hd, hbl]

theorem parseStreamBody_abort (maxProcs : Nat) (p : Pool) (r : Reader)
    (cb : Nat → List Row → Option GoError) (now : Int) (script : List RefillResult)
    (M : Nat) (e : GoError)
    (hp : poolInv p) (hdl : r.isNetConn = false ∨ r.setDeadlineErr = none)
    (hlen : M + 1 ≤ script.length)
    (htake : ∀ o ∈ script.take (M + 1), nonfatal o)
    (hcb1 : ∀ k rows, k < M → cb k rows = none)
    (hcb2 : ∀ rows, cb M rows = some e) :
    (parseStreamBody maxProcs p r cb now script).1.result = some e ∧
    (parseStreamBody maxProcs p r cb now script).1.state.metrics.readCalls = M + 1 ∧
    (parseStreamBody maxProcs p r cb now script).1.batches.length = M + 1 := by
  rcases hg : getStreamContext p with ⟨ctx0, p1⟩
  have hctx0 : ctx0.err = none := by
    have := (poolInv_get p hp).1
    rw [hg] at this
    exact this.2.2.2
  set s0 : ReadState :=
    { ctx := ctx0, metrics := Metrics.zero, script := script, deadlinesSet := 0 } with hs0
  have habort := driverLoop_callback_abort r now cb e M (script.length + 1) 0 s0
    (by rw [hs0]; exact hctx0) hdl
    (by rw [hs0]; exact hlen)
    (by rw [hs0]; exact htake)
    (by intro k rows hk; rw [Nat.zero_add]; exact hcb1 k rows hk)
    (by intro rows; rw [Nat.zero_add]; exact hcb2 rows)
    (by omega)
  rcases hd : driverLoop r now cb (script.length + 1) 0 s0 with ⟨sf, bs, ce⟩
  rw [hd] at habort
  simp only [] at habort
  obtain ⟨hce, hrc, hbl⟩ := habort
  have hbody : (parseStreamBody maxProcs p r cb now script).1 =
      { state := sf, batches := bs, result := some e } := by
    simp only [parseStreamBody, hg, ← hs0, hd, hce]
  rw [hbody]
  refine ⟨rfl, ?_, hbl⟩
  rw [hrc]
  simp [Metrics.zero]

/-- C4: if the callback returns a non-nil error on its Nth invocation, the
driver performs exactly N Read steps (no further read occurs) and
`ParseStream` returns that exact error value verbatim. -/
theorem C4_callback_abort (maxProcs : Nat) (p : Pool) (r : Reader) (isGzipped : Bool)
    (cb : Nat → List Row → Option GoError) (now : Int) (script : List RefillResult)
    (N : Nat) (e : GoError)
    (hp : poolInv p)
    (hgz : isGzipped = false ∨ r.gzipHeaderErr = none)
    (hdl : r.isNetConn = false ∨ r.setDeadlineErr = none)
    (hN : 1 ≤ N) (hlen : N ≤ script.length)
    (htake : ∀ o ∈ script.take N, nonfatal o)
    (hcb1 : ∀ k rows, k + 1 < N → cb k rows = none)
    (hcb2 : ∀ rows, cb (N - 1) rows = some e) :
    (ParseStream maxProcs p r isGzipped cb now script).1.result = some e ∧
    (ParseStream maxProcs p r isGzipped cb now script).1.state.metrics.readCalls = N ∧
    (ParseStream maxProcs p r isGzipped cb now script).1.batches.length = N := by
  obtain ⟨M, rfl⟩ : ∃ M, N = M + 1 := ⟨N - 1, by omega⟩
  have hcb1' : ∀ k rows, k < M → cb k rows = none := fun k rows hk =>
    hcb1 k rows (by omega)
  have hcb2' : ∀ rows, cb M rows = some e := by
    intro rows
    have h := hcb2 rows
    simpa using h
  cases isGzipped with
  | false =>
    simpa only [ParseStream, Bool.false_eq_true, if_false] using
      parseStreamBody_abort maxProcs p r cb now script M e hp hdl hlen htake hcb1' hcb2'
  | true =>
    rcases hgz with hgz | hgz
    · exact absurd hgz (by simp)
    · simpa only [ParseStream, if_true, hgz] using
        parseStreamBody_abort maxProcs p (gzipWrap r) cb now script M e hp
          (Or.inl rfl) hlen htake hcb1' hcb2'

theorem C4_callback_abort_witness :
    (ParseStream 1 ⟨[], []⟩ plainReader false cbFail 5 [successOutcome]).1.result =
      some (.other "cb failed") ∧
    (ParseStream 1 ⟨[], []⟩ plainReader false cbFail 5
      [successOutcome]).1.state.metrics.readCalls = 1 ∧
    (ParseStream 1 ⟨[], []⟩ plainReader false cbFail 5
      [successOutcome]).1.batches.length = 1 :=
  C4_callback_abort 1 ⟨[], []⟩ plainReader false cbFail 5 [successOutcome] 1
    (.other "cb failed") (by decide) (Or.inl rfl) (Or.inl rfl) (by omega) (by simp)
    (fun o ho => by
      simp at ho
      rw [ho]
      exact Or.inl rfl)
    (fun k rows hk => absurd hk (by omega))
    (fun rows => rfl)

theorem readCore_deadlinesSet (now : Int) (s : ReadState) :
    (readCore now s).1.deadlinesSet = s.deadlinesSet := by
  cases hsc : s.script with
  | nil => rw [readCore_exhausted now s hsc]
  | cons o rest =>
    cases ho : o.err with
    | none => rw [readCore_success now s o rest hsc ho]
    | some e =>
      cases ht : isTimeoutErr e with
      | true => rw [readCore_timeout now s o rest e hsc ho ht]
      | false =>
        by_cases hne : e = GoError.eof
        · subst hne
          rw [readCore_eof now s o rest hsc ho]
        · rw [readCore_fatal now s o rest e hsc ho ht hne]

theorem Read_no_deadline (r : Reader) (now : Int) (s : ReadState)
    (hr : r.isNetConn = false) :
    (streamContext.Read r now s).1.deadlinesSet = s.deadlinesSet := by
  cases hctx : s.ctx.err with
  | some e => rw [Read_sticky r now s e hctx]
  | none =>
    rw [Read_ok r now s hctx (Or.inl hr)]
    rw [readCore_deadlinesSet]
    simp [hr]

theorem driverLoop_no_deadline (r : Reader) (now : Int)
    (cb : Nat → List Row → Option GoError) (hr : r.isNetConn = false) :
    ∀ fuel n s, (driverLoop r now cb fuel n s).1.deadlinesSet = s.deadlinesSet := by
  intro fuel
  induction fuel with
  | zero => intro n s; simp [driverLoop]
  | succ fuel ih =>
    intro n s
    rcases hR : streamContext.Read r now s with ⟨s1, cont⟩
    have hds : s1.deadlinesSet = s.deadlinesSet := by
      have := Read_no_deadline r now s hr
      rw [hR] at this
      exact this
    cases cont with
    | false => simp [driverLoop, hR, hds]
    | true =>
      cases hcb : cb n s1.ctx.rows with
      | some e => simp [driverLoop, hR, hcb, hds]
      | none =>
        rcases hd : driverLoop r now cb fuel (n + 1) s1 with ⟨s2, bs, ce⟩
        have := ih (n + 1) s1
        rw [hd] at this
        simp only [] at this
        simp [driverLoop, hR, hcb, hd, this, hds]

/-- C10: a gzipped `ParseStream` call never sets a read deadline on the
underlying source — the decompressing wrapper replaces the reader before
the `net.Conn` capability check, and the wrapper fails that check; by
contrast, a Read step over an uncompressed connection-like source with a
clean context does set the deadline. -/
theorem C10_gzip_no_deadline (maxProcs : Nat) (p : Pool) (r : Reader)
    (cb : Nat → List Row → Option GoError) (now : Int) (script : List RefillResult) :
    (ParseStream maxProcs p r true cb now script).1.state.deadlinesSet = 0 ∧
    ∀ s : ReadState, s.ctx.err = none → r.isNetConn = true → r.setDeadlineErr = none →
      (streamContext.Read r now s).1.deadlinesSet = s.deadlinesSet + 1 := by
  constructor
  · cases hgz : r.gzipHeaderErr with
    | some e => simp [ParseStream, hgz]
    | none =>
      rcases hg : getStreamContext p with ⟨ctx0, p1⟩
      set s0 : ReadState :=
        { ctx := ctx0, metrics := Metrics.zero, script := script, deadlinesSet := 0 } with hs0
      rcases hd : driverLoop (gzipWrap r) now cb (script.length + 1) 0 s0 with ⟨sf, bs, ce⟩
      have hds := driverLoop_no_deadline (gzipWrap r) now cb rfl (script.length + 1) 0 s0
      rw [hd] at hds
      simp only [] at hds
      have hbody : (ParseStream maxProcs p r true cb now script).1.state = sf := by
        simp only [ParseStream, if_true, hgz, parseStreamBody, hg, ← hs0, hd]
      rw [hbody, hds]
  · intro s hctx hr hd
    rw [Read_ok r now s hctx (Or.inr hd)]
    rw [readCore_deadlinesSet]
    simp [hr]

theorem C10_gzip_no_deadline_witness :
    (ParseStream 1 ⟨[], []⟩ connReader true cbNone 5 [successOutcome]).1.state.deadlinesSet = 0 ∧
    (streamContext.Read connReader 5 stateS).1.deadlinesSet = stateS.deadlinesSet + 1 :=
  ⟨(C10_gzip_no_deadline 1 ⟨[], []⟩ connReader cbNone 5 [successOutcome]).1,
    (C10_gzip_no_deadline 1 ⟨[], []⟩ connReader cbNone 5 [successOutcome]).2
      stateS rfl rfl rfl⟩

theorem splitOnChar_ne_nil (sep : Char) (s : List Char) : splitOnChar sep s ≠ [] := by
  induction s with
  | nil => simp [splitOnChar]
  | cons c rest ih =>
    by_cases h : c = sep
    · simp [splitOnChar, h]
    · rcases hr : splitOnChar sep rest with _ | ⟨w, ws⟩
      · exact absurd hr ih
      · simp [splitOnChar, h, hr]

theorem splitLines_line (l rest : List Char) (hl : '\n' ∉ l) :
    splitLines (l ++ '\n' :: rest) = l :: splitLines rest := by
  induction l with
  | nil => simp [splitLines, splitOnChar]
  | cons c l ih =>
    have hc : ¬ c = '\n' := fun h => hl (h ▸ List.mem_cons_self c l)
    have hl' : '\n' ∉ l := fun h => hl (List.mem_cons_of_mem c h)
    have ihl := ih hl'
    simp only [splitLines] at ihl ⊢
    simp [splitOnChar, hc, ihl]

theorem splitLines_joinNL (L : List (List Char)) (hL : ∀ l ∈ L, '\n' ∉ l) :
    splitLines (joinNL L) = L ++ [[]] := by
  induction L with
  | nil => simp [joinNL, splitLines, splitOnChar]
  | cons l L ih =>
    rw [joinNL, splitLines_line l (joinNL L) (hL l (List.mem_cons_self l L)),
      ih fun x hx => hL x (List.mem_cons_of_mem l hx)]
    rfl

theorem unmarshal_joinNL (L : List (List Char)) (hL : ∀ l ∈ L, '\n' ∉ l) :
    unmarshal (joinNL L) = L.filterMap parseLine := by
  rw [unmarshal, splitLines_joinNL L hL, List.filterMap_append]
  simp [parseLine]

theorem joinNL_append (L1 L2 : List (List Char)) :
    joinNL (L1 ++ L2) = joinNL L1 ++ joinNL L2 := by
  induction L1 with
  | nil => simp [joinNL]
  | cons l L1 ih => simp [joinNL, ih]

theorem backfillRows_append (now : Int) (l1 l2 : List Row) :
    backfillRows now (l1 ++ l2) = backfillRows now l1 ++ backfillRows now l2 := by
  simp [backfillRows]

theorem batches_flatten (now : Int) (blocks : List (List (List Char)))
    (hL : ∀ L ∈ blocks, ∀ l ∈ L, '\n' ∉ l) :
    (blocks.map fun L => backfillRows now (unmarshal (joinNL L))).flatten =
      backfillRows now (unmarshal (joinNL blocks.flatten)) := by
  induction blocks with
  | nil => simp [joinNL, unmarshal, splitLines, splitOnChar, parseLine, backfillRows]
  | cons L blocks ih =>
    have hLhead : ∀ l ∈ L, '\n' ∉ l := hL L (List.mem_cons_self L blocks)
    have hLtail : ∀ M ∈ blocks, ∀ l ∈ M, '\n' ∉ l :=
      fun M hM => hL M (List.mem_cons_of_mem L hM)
    have hLflat : ∀ l ∈ (L :: blocks).flatten, '\n' ∉ l := by
      intro l hl
      rcases List.mem_flatten.mp hl with ⟨M, hM, hlM⟩
      exact hL M hM l hlM
    have hLflat' : ∀ l ∈ blocks.flatten, '\n' ∉ l := by
      intro l hl
      rcases List.mem_flatten.mp hl with ⟨M, hM, hlM⟩
      exact hLtail M hM l hlM
    rw [List.map_cons, List.flatten_cons, ih hLtail,
      List.flatten_cons, joinNL_append,
      unmarshal_joinNL L hLhead, unmarshal_joinNL blocks.flatten hLflat']
    rw [show joinNL L ++ joinNL blocks.flatten = joinNL (L ++ blocks.flatten) from
      (joinNL_append L blocks.flatten).symm]
    rw [unmarshal_joinNL (L ++ blocks.flatten) (by
      intro l hl
      rcases List.mem_append.mp hl with hl | hl
      · exact hLhead l hl
      · exact hLflat' l hl)]
    rw [List.filterMap_append, backfillRows_append]

theorem driverLoop_wellFormed (r : Reader) (now : Int)
    (cb : Nat → List Row → Option GoError) (hcb : ∀ n rows, cb n rows = none)
    (hdl : r.isNetConn = false ∨ r.setDeadlineErr = none) :
    ∀ (blocks : List (List (List Char))) (fuel n : Nat) (s : ReadState),
      s.ctx.err = none →
      s.script = wellFormedScript blocks →
      blocks.length < fuel →
      (driverLoop r now cb fuel n s).2.1 =
        blocks.map fun L => backfillRows now (unmarshal (joinNL L)) := by
  intro blocks
  induction blocks with
  | nil =>
    intro fuel n s hctx hsc hfuel
    cases fuel with
    | zero => omega
    | succ f =>
      have hR := (Read_ok r now s hctx hdl).trans
        (readCore_exhausted now _ (by simp [hsc, wellFormedScript]))
      simp [driverLoop, hR]
  | cons L blocks ih =>
    intro fuel n s hctx hsc hfuel
    cases fuel with
    | zero => omega
    | succ f =>
      have hsc' : s.script =
          { reqBuf := joinNL L, tailBuf := [], err := none } :: wellFormedScript blocks := by
        rw [hsc]; rfl
      set S1 : ReadState :=
        { ctx := { rows := backfillRows now (unmarshal (joinNL L)),
                   reqBuf := joinNL L, tailBuf := [], err := none },
          metrics := { readCalls := s.metrics.readCalls + 1,
                       readErrors := s.metrics.readErrors,
                       rowsRead := s.metrics.rowsRead + (unmarshal (joinNL L)).length },
          script := wellFormedScript blocks,
          deadlinesSet := s.deadlinesSet + (if r.isNetConn then 1 else 0) }
        with hS1
      have hR : streamContext.Read r now s = (S1, true) := by
        rw [hS1]
        exact Read_nonfatal r now s _ _ hctx hdl hsc' (Or.inl rfl)
      have hrec := ih f (n + 1) S1 (by rw [hS1]) (by rw [hS1]) (by
        simp only [List.length_cons] at hfuel
        omega)
      rcases hd : driverLoop r now cb f (n + 1) S1 with ⟨s2, bs, ce⟩
      rw [hd] at hrec
      simp only [] at hrec
      simp [driverLoop, hR, hcb, hd, hrec]

/-- C2 counterexample: with one well-formed block `"m 1\n"` whose row
carries no timestamp, the delivered rows hold the backfilled capture time
while one-shot `Rows.Unmarshal` of the entire input yields the unset
sentinel `0`, so the two row sequences differ. -/
theorem C2_as_stated_counterexample :
    ¬ ((ParseStream 1 ⟨[], []⟩ plainReader false cbNone 5
          (wellFormedScript [[['m', ' ', '1']]])).1.batches.flatten =
        unmarshal (joinNL ([[['m', ' ', '1']]] : List (List (List Char))).flatten)) := by
  decide

/-- C2 (amended): for a stream of well-formed, newline-free lines delivered
in successful blocks with no timeouts and an always-accepting callback, the
concatenation of the row batches passed to the callback, in delivery order,
equals the timestamp-backfilled result of decoding the entire input as a
single block; verbatim equality with the plain one-shot decode holds
exactly for rows carrying explicit non-zero timestamps. -/
theorem C2_stream_equals_batch (maxProcs : Nat) (p : Pool) (r : Reader)
    (cb : Nat → List Row → Option GoError) (now : Int)
    (blocks : List (List (List Char)))
    (hp : poolInv p)
    (hcb : ∀ n rows, cb n rows = none)
    (hdl : r.isNetConn = false ∨ r.setDeadlineErr = none)
    (hL : ∀ L ∈ blocks, ∀ l ∈ L, '\n' ∉ l) :
    (ParseStream maxProcs p r false cb now (wellFormedScript blocks)).1.batches.flatten =
      backfillRows now (unmarshal (joinNL blocks.flatten)) := by
  rcases hg : getStreamContext p with ⟨ctx0, p1⟩
  have hctx0 : ctx0.err = none := by
    have := (poolInv_get p hp).1
    rw [hg] at this
    exact this.2.2.2
  set s0 : ReadState :=
    { ctx := ctx0, metrics := Metrics.zero,
      script := wellFormedScript blocks, deadlinesSet := 0 } with hs0
  rcases hd : driverLoop r now cb ((wellFormedScript blocks).length + 1) 0 s0
    with ⟨sf, bs, ce⟩
  have hbatch := driverLoop_wellFormed r now cb hcb hdl blocks
    ((wellFormedScript blocks).length + 1) 0 s0
    (by rw [hs0]; exact hctx0) (by rw [hs0]) (by simp [wellFormedScript])
  rw [hd] at hbatch
  simp only [] at hbatch
  have hbody : (ParseStream maxProcs p r false cb now (wellFormedScript blocks)).1.batches
      = bs := by
    simp only [ParseStream, Bool.false_eq_true, if_false, parseStreamBody, hg, ← hs0, hd]
  rw [hbody, hbatch]
  exact batches_flatten now blocks hL

theorem C2_stream_equals_batch_witness :
    (ParseStream 1 ⟨[], []⟩ plainReader false cbNone 5
        (wellFormedScript [[['m', ' ', '1']], [['n', ' ', '2', ' ', '7']]])).1.batches.flatten =
      backfillRows 5 (unmarshal (joinNL
        ([[['m', ' ', '1']], [['n', ' ', '2', ' ', '7']]] :
          List (List (List Char))).flatten)) :=
  C2_stream_equals_batch 1 ⟨[], []⟩ plainReader cbNone 5
    [[['m', ' ', '1']], [['n', ' ', '2', ' ', '7']]]
    (by decide) (fun _ _ => rfl) (Or.inl rfl) (by decide)

end Prometheus
